import Mathlib

/-!
Verification development for the `remutex` crate: a reentrant (recursive)
mutual-exclusion lock with poisoning, embedded shallowly from
`src/remutex/src/remutex.rs`.

The crate delegates to two collaborator modules that are part of the
repository but whose sources are not available here: `crate::sys` (the
platform recursive-lock primitive) and `crate::poison` (the poison flag).
Those two are modelled from the specification (sections 3, 6, 4.2); each
such definition carries a doc comment saying so. Everything in the
`ReentrantMutex` namespace itself is translated from `remutex.rs`.

Concurrency is embedded as an explicit state machine: a lock state plus
the multiset of live guards, with a step relation covering the three
operations that touch the lock (`lock`, `try_lock`, guard drop). A thread
identifier and the boolean "the thread is currently unwinding" are passed
explicitly where the Rust runtime would supply them ambiently.
-/

namespace Remutex

/-- Thread identifiers of the model. -/
abbrev ThreadId := Nat

/-- Result of a blocking acquisition, mirroring `LockResult` of the crate:
either a success carrying a value, or a poison error still carrying the
value so the caller can recover the data. -/
inductive LockResult (α : Type) where
  | ok : α → LockResult α
  | poisoned : α → LockResult α
deriving Repr, DecidableEq

/-- Result of a non-blocking acquisition, mirroring `TryLockResult` of the
crate: success, poison error carrying the value, or `WouldBlock`. -/
inductive TryLockResult (α : Type) where
  | ok : α → TryLockResult α
  | poisoned : α → TryLockResult α
  | wouldBlock : TryLockResult α
deriving Repr, DecidableEq

namespace poison

/-- Modelled from the spec: the poison-flag collaborator (`crate::poison`,
not under `src/`). Spec section 3 describes the token handed out at the
start of a critical section as an opaque witness that the poison flag was
checked and borrowed at construction time, used only at drop time to report
whether this critical section ended via unwind. To tell whether the section
itself ended via unwind, as opposed to the thread having been unwinding
already when the section began, the token records whether the thread was
unwinding when it was created. -/
structure Guard where
  panicking : Bool
deriving Repr, DecidableEq

/-- Modelled from the spec: `begin_critical_section` of the poison flag
(spec section 6), called `borrow` by `remutex.rs`. Reads the flag: when the
flag is set the token is returned inside the poison error, otherwise as a
success; either way a token recording the current unwinding state is
produced. The flag itself is a single sticky boolean. -/
def borrow (flag : Bool) (panickingNow : Bool) : LockResult Guard :=
  if flag then .poisoned ⟨panickingNow⟩ else .ok ⟨panickingNow⟩

/-- Modelled from the spec: `end_critical_section` of the poison flag
(spec section 6), called `done` by `remutex.rs`. Returns the new flag
value: the flag becomes set exactly when this critical section ended via
unwind, that is, the thread was not unwinding when the token was created
but is unwinding now; otherwise the flag is left unchanged (spec sections
3 and 4.2). -/
def done (flag : Bool) (g : Guard) (panickingNow : Bool) : Bool :=
  if !g.panicking && panickingNow then true else flag

/-- Modelled from the spec: the error-wrapping convenience of the poison
module (spec section 6), applied by `ReentrantMutexGuard::new` to wrap the
poison token into a mutex guard on both the success and the poisoned path. -/
def map_result {α β : Type} (r : LockResult α) (f : α → β) : LockResult β :=
  match r with
  | .ok a => .ok (f a)
  | .poisoned a => .poisoned (f a)

end poison

namespace sys

/-- Modelled from the spec: the state of the platform recursive-lock
primitive (`crate::sys`, not under `src/`). Spec section 6 requires it to
support being acquired multiple times by its owning thread and to track a
per-thread depth, so the state is either free or an owning thread together
with a positive reentrancy depth. -/
abbrev State := Option (ThreadId × Nat)

/-- Modelled from the spec: whether thread `t` could acquire the primitive
right now without blocking: the primitive is free, or `t` already owns it
(spec sections 4.1 and 6). -/
def canAcquire (s : State) (t : ThreadId) : Bool :=
  match s with
  | none => true
  | some (t0, _) => t0 == t

/-- Modelled from the spec: the state change of a successful acquisition:
a free primitive becomes owned at depth 1, a reacquisition by the owner
increments the depth (spec sections 4.1 and 6). Only applied when
`canAcquire` holds. -/
def acquire (s : State) (t : ThreadId) : State :=
  match s with
  | none => some (t, 1)
  | some (t0, d) => some (t0, d + 1)

/-- Modelled from the spec: `try_acquire` of the primitive (spec section
6): succeeds exactly when the caller could acquire without blocking,
returning the success bit and the updated state. -/
def try_lock (s : State) (t : ThreadId) : Bool × State :=
  if canAcquire s t then (true, acquire s t) else (false, s)

/-- Modelled from the spec: `release` of the primitive (spec section 6):
decrements the reentrancy depth; only when the depth reaches zero does the
primitive become free (spec section 4.2). -/
def unlock (s : State) : State :=
  match s with
  | none => none
  | some (t0, d) => if d ≤ 1 then none else some (t0, d - 1)

end sys

/-- State of a `ReentrantMutex<T>` from `remutex.rs`: the platform
primitive (`inner`), the poison flag (`poison`, one sticky boolean) and
the protected value (`data`). -/
structure ReentrantMutex (α : Type) where
  inner : sys.State
  poison : Bool
  data : α
deriving Repr, DecidableEq

/-- From `ReentrantMutex::new` in `remutex.rs`: moves the value in and
initializes the primitive in an unlocked state with a clean poison flag. -/
def ReentrantMutex.new {α : Type} (t : α) : ReentrantMutex α :=
  { inner := none, poison := false, data := t }

/-- A `ReentrantMutexGuard` from `remutex.rs`. The Rust guard holds a back
reference `__lock` to its mutex; in the model the mutex state is passed
explicitly, so the guard keeps only the poison token `__poison` together
with the identifier of the thread that created it (the thread is ambient
in Rust). -/
structure ReentrantMutexGuard where
  thread : ThreadId
  __poison : poison.Guard
deriving Repr, DecidableEq

/-- From `ReentrantMutexGuard::new` in `remutex.rs`: borrows the poison
flag and wraps the token into a guard with `poison::map_result`, so a
guard is produced on the success path and on the poisoned path alike. -/
def ReentrantMutexGuard.new {α : Type} (m : ReentrantMutex α) (t : ThreadId)
    (panickingNow : Bool) : LockResult ReentrantMutexGuard :=
  poison.map_result (poison.borrow m.poison panickingNow)
    (fun g => { thread := t, __poison := g })

/-- From `ReentrantMutex::lock` in `remutex.rs`: `self.inner.lock()`
followed by `ReentrantMutexGuard::new(&self)`. Blocking is embedded as
partiality: the call returns `none` while the primitive is held by a
different thread (the caller stays blocked and no state changes), and
returns the lock result together with the updated mutex once the
acquisition can proceed. -/
def ReentrantMutex.lock {α : Type} (m : ReentrantMutex α) (t : ThreadId)
    (panickingNow : Bool) :
    Option (LockResult ReentrantMutexGuard × ReentrantMutex α) :=
  if sys.canAcquire m.inner t then
    let m2 : ReentrantMutex α := { m with inner := sys.acquire m.inner t }
    some (ReentrantMutexGuard.new m2 t panickingNow, m2)
  else
    none


/-- From the `?` operator in `ReentrantMutex::try_lock` in `remutex.rs`:
a poison error of the guard constructor is converted into
`TryLockError::Poisoned`, a success stays a success. -/
def fromLockResult : LockResult ReentrantMutexGuard →
    TryLockResult ReentrantMutexGuard
  | .ok g => .ok g
  | .poisoned g => .poisoned g

/-- From `ReentrantMutex::try_lock` in `remutex.rs`: when
`self.inner.try_lock()` succeeds, the guard is built and a poison error is
converted into `TryLockError::Poisoned` by the `?` operator, the depth
increment standing either way; otherwise `Err(WouldBlock)` is returned and
the state is untouched. -/
def ReentrantMutex.try_lock {α : Type} (m : ReentrantMutex α) (t : ThreadId)
    (panickingNow : Bool) :
    TryLockResult ReentrantMutexGuard × ReentrantMutex α :=
  if (sys.try_lock m.inner t).1 then
    let m2 : ReentrantMutex α := { m with inner := (sys.try_lock m.inner t).2 }
    (fromLockResult (ReentrantMutexGuard.new m2 t panickingNow), m2)
  else
    (.wouldBlock, m)

/-- First half of `Drop for ReentrantMutexGuard` in `remutex.rs`: the call
`self.__lock.poison.done(&self.__poison)`, updating the poison flag and
nothing else. -/
def poisonDoneStep {α : Type} (m : ReentrantMutex α) (g : ReentrantMutexGuard)
    (panickingNow : Bool) : ReentrantMutex α :=
  { m with poison := poison.done m.poison g.__poison panickingNow }

/-- Second half of `Drop for ReentrantMutexGuard` in `remutex.rs`: the
call `self.__lock.inner.unlock()`, releasing the primitive and nothing
else. -/
def unlockStep {α : Type} (m : ReentrantMutex α) : ReentrantMutex α :=
  { m with inner := sys.unlock m.inner }

/-- From `Drop for ReentrantMutexGuard` in `remutex.rs`: the poison flag
update runs first, the primitive release second. -/
def ReentrantMutexGuard.drop {α : Type} (g : ReentrantMutexGuard)
    (m : ReentrantMutex α) (panickingNow : Bool) : ReentrantMutex α :=
  unlockStep (poisonDoneStep m g panickingNow)

/-- From `Deref for ReentrantMutexGuard` in `remutex.rs`: dereferencing a
guard reads `self.__lock.data`, the protected value of the mutex the guard
was created from; the guard itself contributes nothing. -/
def ReentrantMutexGuard.deref {α : Type} (_g : ReentrantMutexGuard)
    (m : ReentrantMutex α) : α :=
  m.data

/-- Both constructors of `LockResult` carry a guard; this extracts it. -/
def LockResult.guard : LockResult ReentrantMutexGuard → ReentrantMutexGuard
  | .ok g => g
  | .poisoned g => g

/-- Guards produced by a non-blocking acquisition: on the success and on
the poisoned path the guard becomes live, on `WouldBlock` no guard exists. -/
def pushTry : TryLockResult ReentrantMutexGuard → List ReentrantMutexGuard →
    List ReentrantMutexGuard
  | .ok g, l => g :: l
  | .poisoned g, l => g :: l
  | .wouldBlock, l => l

/-- Global state of the concurrency model: the mutex together with the
collection of currently live guards (each remembering its creating
thread). -/
structure Sys (α : Type) where
  mtx : ReentrantMutex α
  live : List ReentrantMutexGuard
deriving Repr, DecidableEq

/-- One step of the concurrency model. A `lockStep` is a call of
`ReentrantMutex::lock` that proceeds (a call that returns `none` leaves the
caller blocked and changes nothing, so it is no step); a `tryLockStep` is
any call of `ReentrantMutex::try_lock`; a `dropStep` is the drop of one
live guard. The `pan` arguments are the ambient "this thread is currently
unwinding" bit at the instant of the call. -/
inductive Step {α : Type} : Sys α → Sys α → Prop where
  | lockStep (s : Sys α) (t : ThreadId) (pan : Bool)
      (r : LockResult ReentrantMutexGuard) (m2 : ReentrantMutex α)
      (h : s.mtx.lock t pan = some (r, m2)) :
      Step s ⟨m2, r.guard :: s.live⟩
  | tryLockStep (s : Sys α) (t : ThreadId) (pan : Bool) :
      Step s ⟨(s.mtx.try_lock t pan).2, pushTry (s.mtx.try_lock t pan).1 s.live⟩
  | dropStep (s : Sys α) (g : ReentrantMutexGuard) (pan : Bool)
      (h : g ∈ s.live) :
      Step s ⟨g.drop s.mtx pan, s.live.erase g⟩

/-- States of the concurrency model reachable from a freshly constructed
mutex holding the value `v0` and no live guard. -/
inductive Reachable {α : Type} (v0 : α) : Sys α → Prop where
  | init : Reachable v0 ⟨ReentrantMutex.new v0, []⟩
  | step {s s2 : Sys α} : Reachable v0 s → Step s s2 → Reachable v0 s2

/-- Zero or more steps of the concurrency model. -/
inductive Steps {α : Type} : Sys α → Sys α → Prop where
  | refl (s : Sys α) : Steps s s
  | tail {s s2 s3 : Sys α} : Steps s s2 → Step s2 s3 → Steps s s3

/-- The structural invariant tying a primitive state to the live guards:
when the primitive is free no guard is live; when thread `t` owns it at
depth `d`, exactly `d` guards are live and each was created by `t`. -/
def InvAt (st : sys.State) (live : List ReentrantMutexGuard) : Prop :=
  match st with
  | none => live = []
  | some (t, d) => live.length = d ∧ ∀ g ∈ live, g.thread = t

/-- The invariant of the concurrency model, read off a global state. -/
def Inv {α : Type} (s : Sys α) : Prop :=
  InvAt s.mtx.inner s.live

theorem guard_new_eq {α : Type} (m : ReentrantMutex α) (t : ThreadId)
    (pan : Bool) :
    ReentrantMutexGuard.new m t pan =
      if m.poison then .poisoned ⟨t, ⟨pan⟩⟩ else .ok ⟨t, ⟨pan⟩⟩ := by
  unfold ReentrantMutexGuard.new poison.borrow poison.map_result
  by_cases h : m.poison <;> simp [h]

theorem guard_new_thread {α : Type} (m : ReentrantMutex α) (t : ThreadId)
    (pan : Bool) : (ReentrantMutexGuard.new m t pan).guard.thread = t := by
  rw [guard_new_eq]
  by_cases h : m.poison <;> simp [h, LockResult.guard]

theorem pushTry_fromLockResult (r : LockResult ReentrantMutexGuard)
    (l : List ReentrantMutexGuard) :
    pushTry (fromLockResult r) l = r.guard :: l := by
  cases r <;> rfl

theorem lock_eq_of_canAcquire {α : Type} {m : ReentrantMutex α}
    {t : ThreadId} (pan : Bool) (h : sys.canAcquire m.inner t = true) :
    m.lock t pan =
      some (ReentrantMutexGuard.new { m with inner := sys.acquire m.inner t }
              t pan,
            { m with inner := sys.acquire m.inner t }) := by
  unfold ReentrantMutex.lock
  simp [h]

theorem lock_eq_none {α : Type} {m : ReentrantMutex α} {t : ThreadId}
    (pan : Bool) (h : sys.canAcquire m.inner t = false) :
    m.lock t pan = none := by
  unfold ReentrantMutex.lock
  simp [h]

theorem try_lock_eq_of_canAcquire {α : Type} {m : ReentrantMutex α}
    {t : ThreadId} (pan : Bool) (h : sys.canAcquire m.inner t = true) :
    m.try_lock t pan =
      (fromLockResult
         (ReentrantMutexGuard.new { m with inner := sys.acquire m.inner t }
            t pan),
       { m with inner := sys.acquire m.inner t }) := by
  unfold ReentrantMutex.try_lock
  simp [sys.try_lock, h]

theorem try_lock_eq_wouldBlock {α : Type} {m : ReentrantMutex α}
    {t : ThreadId} (pan : Bool) (h : sys.canAcquire m.inner t = false) :
    m.try_lock t pan = (.wouldBlock, m) := by
  unfold ReentrantMutex.try_lock
  simp [sys.try_lock, h]

theorem invAt_acquire {st : sys.State} {live : List ReentrantMutexGuard}
    {t : ThreadId} {g : ReentrantMutexGuard} (hi : InvAt st live)
    (hc : sys.canAcquire st t = true) (hg : g.thread = t) :
    InvAt (sys.acquire st t) (g :: live) := by
  cases st with
  | none =>
    unfold InvAt at hi
    simp at hi
    simp [sys.acquire, InvAt, hi, hg]
  | some p =>
    obtain ⟨t0, d⟩ := p
    obtain ⟨hlen, hall⟩ := hi
    have ht0 : t0 = t := by
      simpa [sys.canAcquire] using hc
    show (g :: live).length = d + 1 ∧ ∀ g2 ∈ g :: live, g2.thread = t0
    refine ⟨by simp [hlen], ?_⟩
    intro g2 hg2
    rcases List.mem_cons.mp hg2 with h2 | h2
    · rw [h2, hg, ht0]
    · exact hall g2 h2

theorem invAt_unlock {st : sys.State} {live : List ReentrantMutexGuard}
    {g : ReentrantMutexGuard} (hi : InvAt st live) (hg : g ∈ live) :
    InvAt (sys.unlock st) (live.erase g) := by
  cases st with
  | none =>
    unfold InvAt at hi
    rw [hi] at hg
    simp at hg
  | some p =>
    obtain ⟨t0, d⟩ := p
    obtain ⟨hlen, hall⟩ := hi
    by_cases hd : d ≤ 1
    · have hu : sys.unlock (some (t0, d)) = none := by simp [sys.unlock, hd]
      rw [hu]
      show live.erase g = []
      apply List.length_eq_zero.mp
      rw [List.length_erase_of_mem hg, hlen]
      omega
    · have hu : sys.unlock (some (t0, d)) = some (t0, d - 1) := by
        simp [sys.unlock, hd]
      rw [hu]
      show (live.erase g).length = d - 1 ∧ ∀ g2 ∈ live.erase g, g2.thread = t0
      refine ⟨by rw [List.length_erase_of_mem hg, hlen], ?_⟩
      intro g2 hg2
      exact hall g2 (List.mem_of_mem_erase hg2)

theorem inv_step {α : Type} {s s2 : Sys α} (hs : Step s s2) (hi : Inv s) :
    Inv s2 := by
  cases hs with
  | lockStep t pan r m2 h =>
    by_cases hc : sys.canAcquire s.mtx.inner t
    · rw [lock_eq_of_canAcquire pan hc] at h
      injection h with h
      injection h with hr hm
      unfold Inv
      simp only [← hm, ← hr]
      exact invAt_acquire hi hc (guard_new_thread _ t pan)
    · rw [lock_eq_none pan (by simpa using hc)] at h
      exact absurd h (by simp)
  | tryLockStep t pan =>
    by_cases hc : sys.canAcquire s.mtx.inner t
    · unfold Inv
      simp only [try_lock_eq_of_canAcquire pan hc, pushTry_fromLockResult]
      exact invAt_acquire hi hc (guard_new_thread _ t pan)
    · unfold Inv
      simp only [try_lock_eq_wouldBlock pan (by simpa using hc), pushTry]
      exact hi
  | dropStep g pan h =>
    unfold Inv
    exact invAt_unlock hi h

theorem inv_init {α : Type} (v0 : α) :
    Inv (⟨ReentrantMutex.new v0, []⟩ : Sys α) := by
  simp [Inv, InvAt, ReentrantMutex.new]

theorem inv_reachable {α : Type} {v0 : α} {s : Sys α} (h : Reachable v0 s) :
    Inv s := by
  induction h with
  | init => exact inv_init v0
  | step _ hstep ih => exact inv_step hstep ih

theorem poisonDone_of_true {flag : Bool} (g : poison.Guard) (pan : Bool)
    (h : flag = true) : poison.done flag g pan = true := by
  unfold poison.done
  by_cases hc : (!g.panicking && pan) = true <;> simp [hc, h]

theorem step_poison_mono {α : Type} {s s2 : Sys α} (hs : Step s s2)
    (hp : s.mtx.poison = true) : s2.mtx.poison = true := by
  cases hs with
  | lockStep t pan r m2 h =>
    by_cases hc : sys.canAcquire s.mtx.inner t
    · rw [lock_eq_of_canAcquire pan hc] at h
      injection h with h
      injection h with _ hm
      rw [← hm]
      exact hp
    · rw [lock_eq_none pan (by simpa using hc)] at h
      exact absurd h (by simp)
  | tryLockStep t pan =>
    by_cases hc : sys.canAcquire s.mtx.inner t
    · simp only [try_lock_eq_of_canAcquire pan hc]
      exact hp
    · simp only [try_lock_eq_wouldBlock pan (by simpa using hc)]
      exact hp
  | dropStep g pan h =>
    show (unlockStep (poisonDoneStep s.mtx g pan)).poison = true
    unfold unlockStep poisonDoneStep
    exact poisonDone_of_true g.__poison pan hp

theorem steps_poison_mono {α : Type} {s s2 : Sys α} (hs : Steps s s2)
    (hp : s.mtx.poison = true) : s2.mtx.poison = true := by
  induction hs with
  | refl => exact hp
  | tail _ hstep ih => exact step_poison_mono hstep ih

/-- Reentrancy depth tracked by the primitive state. -/
def sysDepth : sys.State → Nat
  | none => 0
  | some (_, d) => d

theorem sysDepth_acquire (st : sys.State) (t : ThreadId) :
    sysDepth (sys.acquire st t) = sysDepth st + 1 := by
  cases st with
  | none => rfl
  | some p => obtain ⟨t0, d⟩ := p; rfl

/-- Claim C1: mutual exclusion. For every reachable state of the model and
every pair of live guards of the same mutex, the guards were created by
the same thread: no instant exists at which two distinct threads both hold
a live guard (obtained via lock or try_lock) for the same lock. -/
theorem mutual_exclusion {α : Type} {v0 : α} {s : Sys α}
    (h : Reachable v0 s) {g1 g2 : ReentrantMutexGuard}
    (h1 : g1 ∈ s.live) (h2 : g2 ∈ s.live) : g1.thread = g2.thread := by
  have hi := inv_reachable h
  unfold Inv at hi
  cases hst : s.mtx.inner with
  | none =>
    rw [hst] at hi
    have : s.live = [] := hi
    rw [this] at h1
    simp at h1
  | some p =>
    obtain ⟨t, d⟩ := p
    rw [hst] at hi
    obtain ⟨_, hall⟩ := hi
    rw [hall g1 h1, hall g2 h2]

theorem mutual_exclusion_witness :
    (⟨5, ⟨false⟩⟩ : ReentrantMutexGuard).thread =
      (⟨5, ⟨true⟩⟩ : ReentrantMutexGuard).thread :=
  mutual_exclusion
    (Reachable.step
      (Reachable.step
        (Reachable.init : Reachable (0 : Nat) ⟨ReentrantMutex.new 0, []⟩)
        (Step.lockStep _ 5 false (.ok ⟨5, ⟨false⟩⟩)
          ⟨some (5, 1), false, 0⟩ rfl))
      (Step.lockStep _ 5 true (.ok ⟨5, ⟨true⟩⟩)
        ⟨some (5, 2), false, 0⟩ rfl))
    (by decide) (by decide)

/-- Claim C2: reentrancy. When the mutex is already held by thread `t` at
depth `d`, a nested `lock` call by `t` proceeds at once (it is never the
blocked `none` case) and a nested `try_lock` never returns `WouldBlock`;
both move the primitive to depth `d + 1` for the same thread, both fail
only with the pre-existing poison state, and the protected value is
reachable through the returned guard (also when it arrives inside the
poison error). -/
theorem reentrant_acquire {α : Type} (m : ReentrantMutex α) (t : ThreadId)
    (d : Nat) (pan : Bool) (h : m.inner = some (t, d)) :
    ∃ r : LockResult ReentrantMutexGuard,
      m.lock t pan = some (r, { m with inner := some (t, d + 1) }) ∧
      m.try_lock t pan =
        (fromLockResult r, { m with inner := some (t, d + 1) }) ∧
      fromLockResult r ≠ .wouldBlock ∧
      ((∃ g, r = .poisoned g) ↔ m.poison = true) ∧
      r.guard.deref { m with inner := some (t, d + 1) } = m.data := by
  have hc : sys.canAcquire m.inner t = true := by
    simp [sys.canAcquire, h]
  have hacq : sys.acquire m.inner t = some (t, d + 1) := by
    simp [sys.acquire, h]
  refine ⟨ReentrantMutexGuard.new { m with inner := some (t, d + 1) } t pan,
    ?_, ?_, ?_, ?_, ?_⟩
  · rw [lock_eq_of_canAcquire pan hc, hacq]
  · rw [try_lock_eq_of_canAcquire pan hc, hacq]
  · rw [guard_new_eq]
    show ¬fromLockResult (if m.poison then _ else _) = .wouldBlock
    by_cases hp : m.poison <;> simp [hp, fromLockResult]
  · rw [guard_new_eq]
    show (∃ g, (if m.poison then _ else _) = LockResult.poisoned g) ↔ _
    by_cases hp : m.poison <;> simp [hp]
  · rfl

theorem reentrant_acquire_witness :
    ∃ r : LockResult ReentrantMutexGuard,
      ReentrantMutex.lock ⟨some (7, 1), false, (42 : Nat)⟩ 7 false =
        some (r, ⟨some (7, 2), false, 42⟩) ∧
      ReentrantMutex.try_lock ⟨some (7, 1), false, (42 : Nat)⟩ 7 false =
        (fromLockResult r, ⟨some (7, 2), false, 42⟩) ∧
      fromLockResult r ≠ .wouldBlock ∧
      ((∃ g, r = .poisoned g) ↔
        (⟨some (7, 1), false, (42 : Nat)⟩ : ReentrantMutex Nat).poison
          = true) ∧
      r.guard.deref ⟨some (7, 2), false, 42⟩ = 42 :=
  reentrant_acquire ⟨some (7, 1), false, (42 : Nat)⟩ 7 1 false rfl

/-- Claim C3: guard release ordering. The drop of a guard is, by the
statement order of the source, the poison update followed by the primitive
release. At the intermediate point, where the poison flag is already
finalized but the primitive not yet released, no other thread can complete
a `lock` call, so no acquisition ever observes a pre-drop poison value;
and any `lock` call that completes after the releasing drop reports
`Poisoned` exactly when the finalized flag, `poison.done` applied to the
pre-drop flag, is set. -/
theorem drop_poison_before_release {α : Type} (m : ReentrantMutex α)
    (g : ReentrantMutexGuard) (pan : Bool) (t0 : ThreadId)
    (h : m.inner = some (t0, 1)) :
    g.drop m pan = unlockStep (poisonDoneStep m g pan) ∧
    (∀ t pan2, t ≠ t0 → (poisonDoneStep m g pan).lock t pan2 = none) ∧
    (∀ t pan2 r m2, (g.drop m pan).lock t pan2 = some (r, m2) →
      ((∃ g2, r = .poisoned g2) ↔
        poison.done m.poison g.__poison pan = true)) := by
  refine ⟨rfl, ?_, ?_⟩
  · intro t pan2 ht
    apply lock_eq_none
    show sys.canAcquire (poisonDoneStep m g pan).inner t = false
    unfold poisonDoneStep
    simp [sys.canAcquire, h]
    exact fun he => absurd he.symm ht
  · intro t pan2 r m2 hlock
    have hinner : (g.drop m pan).inner = none := by
      show (unlockStep (poisonDoneStep m g pan)).inner = none
      unfold unlockStep poisonDoneStep
      simp [sys.unlock, h]
    have hpoison : (g.drop m pan).poison =
        poison.done m.poison g.__poison pan := rfl
    have hc : sys.canAcquire (g.drop m pan).inner t = true := by
      rw [hinner]; rfl
    rw [lock_eq_of_canAcquire pan2 hc] at hlock
    injection hlock with hlock
    injection hlock with hr _
    rw [← hr, guard_new_eq]
    show (∃ g2, (if (g.drop m pan).poison then _ else _) =
      LockResult.poisoned g2) ↔ _
    rw [hpoison]
    by_cases hp : poison.done m.poison g.__poison pan <;> simp [hp]

theorem drop_poison_before_release_witness :
    ReentrantMutexGuard.drop ⟨3, ⟨false⟩⟩
        (⟨some (3, 1), false, (0 : Nat)⟩ : ReentrantMutex Nat) true =
      unlockStep (poisonDoneStep ⟨some (3, 1), false, 0⟩ ⟨3, ⟨false⟩⟩ true) ∧
    (∀ t pan2, t ≠ 3 →
      (poisonDoneStep (⟨some (3, 1), false, (0 : Nat)⟩ : ReentrantMutex Nat)
          ⟨3, ⟨false⟩⟩ true).lock t pan2 = none) ∧
    (∀ t pan2 r m2,
      (ReentrantMutexGuard.drop ⟨3, ⟨false⟩⟩
          (⟨some (3, 1), false, (0 : Nat)⟩ : ReentrantMutex Nat) true).lock
            t pan2 = some (r, m2) →
      ((∃ g2, r = .poisoned g2) ↔
        poison.done false (⟨false⟩ : poison.Guard) true = true)) :=
  drop_poison_before_release ⟨some (3, 1), false, (0 : Nat)⟩ ⟨3, ⟨false⟩⟩
    true 3 rfl

/-- Claim C4: lock result semantics. When a `lock` call completes, the
result is the poison error exactly when the poison flag was set, and the
success exactly when it was clean; in both cases the result carries the
guard just constructed for the acquiring thread, so the caller can recover
the data explicitly in the poisoned case. -/
theorem lock_result_semantics {α : Type} (m : ReentrantMutex α)
    (t : ThreadId) (pan : Bool) (r : LockResult ReentrantMutexGuard)
    (m2 : ReentrantMutex α) (h : m.lock t pan = some (r, m2)) :
    (m.poison = true → r = .poisoned ⟨t, ⟨pan⟩⟩) ∧
    (m.poison = false → r = .ok ⟨t, ⟨pan⟩⟩) := by
  by_cases hc : sys.canAcquire m.inner t
  · rw [lock_eq_of_canAcquire pan hc] at h
    injection h with h
    injection h with hr _
    rw [← hr, guard_new_eq]
    constructor <;> intro hp <;> simp [hp]
  · rw [lock_eq_none pan (by simpa using hc)] at h
    exact absurd h (by simp)

theorem lock_result_semantics_witness :
    ((⟨none, true, (9 : Nat)⟩ : ReentrantMutex Nat).poison = true →
      LockResult.poisoned (⟨4, ⟨false⟩⟩ : ReentrantMutexGuard) =
        .poisoned ⟨4, ⟨false⟩⟩) ∧
    ((⟨none, true, (9 : Nat)⟩ : ReentrantMutex Nat).poison = false →
      LockResult.poisoned (⟨4, ⟨false⟩⟩ : ReentrantMutexGuard) =
        .ok ⟨4, ⟨false⟩⟩) :=
  lock_result_semantics ⟨none, true, (9 : Nat)⟩ 4 false
    (.poisoned ⟨4, ⟨false⟩⟩) ⟨some (4, 1), true, 9⟩ rfl

/-- Claim C5: try_lock semantics. When the primitive is held by a
different thread, `try_lock` returns `WouldBlock` at once, constructs no
guard and returns the mutex state unchanged. When the non-blocking
acquisition succeeds, the same poison check as `lock` applies: the depth
is incremented and the poison flag and data are untouched in every case,
and in the poisoned case the lock still counts as acquired, with the
guard carried inside the poison error. -/
theorem try_lock_semantics {α : Type} (m : ReentrantMutex α)
    (t t0 : ThreadId) (d : Nat) (pan : Bool) :
    (m.inner = some (t0, d) → t0 ≠ t → m.try_lock t pan = (.wouldBlock, m)) ∧
    (sys.canAcquire m.inner t = true →
      (m.try_lock t pan).2.inner = sys.acquire m.inner t ∧
      (m.try_lock t pan).2.poison = m.poison ∧
      (m.try_lock t pan).2.data = m.data ∧
      (m.poison = true → (m.try_lock t pan).1 = .poisoned ⟨t, ⟨pan⟩⟩) ∧
      (m.poison = false → (m.try_lock t pan).1 = .ok ⟨t, ⟨pan⟩⟩)) := by
  constructor
  · intro h ht
    apply try_lock_eq_wouldBlock
    simp [sys.canAcquire, h]
    exact fun he => absurd he ht
  · intro hc
    simp only [try_lock_eq_of_canAcquire pan hc]
    refine ⟨by trivial, by trivial, by trivial, ?_, ?_⟩ <;> intro hp <;>
      rw [guard_new_eq] <;>
      show fromLockResult
        (if (({ m with inner := sys.acquire m.inner t } :
          ReentrantMutex α)).poison then _ else _) = _ <;>
      simp [hp, fromLockResult]

theorem try_lock_semantics_witness :
    ((⟨some (8, 2), true, (1 : Nat)⟩ : ReentrantMutex Nat).inner =
        some (8, 2) → (8 : ThreadId) ≠ 9 →
      ReentrantMutex.try_lock ⟨some (8, 2), true, (1 : Nat)⟩ 9 false =
        (.wouldBlock, ⟨some (8, 2), true, 1⟩)) ∧
    (sys.canAcquire (some (8, 2)) 9 = true →
      (ReentrantMutex.try_lock ⟨some (8, 2), true, (1 : Nat)⟩ 9 false).2.inner
          = sys.acquire (some (8, 2)) 9 ∧
      (ReentrantMutex.try_lock ⟨some (8, 2), true, (1 : Nat)⟩ 9
          false).2.poison = true ∧
      (ReentrantMutex.try_lock ⟨some (8, 2), true, (1 : Nat)⟩ 9 false).2.data
          = 1 ∧
      (true = true →
        (ReentrantMutex.try_lock ⟨some (8, 2), true, (1 : Nat)⟩ 9 false).1 =
          .poisoned ⟨9, ⟨false⟩⟩) ∧
      (true = false →
        (ReentrantMutex.try_lock ⟨some (8, 2), true, (1 : Nat)⟩ 9 false).1 =
          .ok ⟨9, ⟨false⟩⟩)) :=
  try_lock_semantics ⟨some (8, 2), true, (1 : Nat)⟩ 9 8 2 false

/-- Claim C6 counterexample: a guard can be the outermost guard of its
mutex, be dropped while its thread is unwinding, and still leave the lock
clean. On a fresh mutex, a thread that is already unwinding (for example
inside a destructor running during an unwind) acquires the lock, so the
poison token records the unwinding state; dropping that outermost guard
while still unwinding does not set the flag, and a subsequent acquisition
observes a plain success rather than `Poisoned`. -/
theorem poison_propagation_counterexample :
    ReentrantMutex.lock (ReentrantMutex.new (0 : Nat)) 3 true =
      some (.ok ⟨3, ⟨true⟩⟩, ⟨some (3, 1), false, 0⟩) ∧
    ReentrantMutexGuard.drop ⟨3, ⟨true⟩⟩
        (⟨some (3, 1), false, (0 : Nat)⟩ : ReentrantMutex Nat) true =
      ⟨none, false, 0⟩ ∧
    ReentrantMutex.lock (⟨none, false, (0 : Nat)⟩ : ReentrantMutex Nat) 4
        false = some (.ok ⟨4, ⟨false⟩⟩, ⟨some (4, 1), false, 0⟩) := by
  decide

/-- Claim C6 (amended): if the outermost guard was created while the
thread was not unwinding and is dropped while the thread is unwinding,
the poison flag becomes set; the flag is never cleared by any later step
of the model; and every acquisition of a poisoned mutex that completes
observes `Poisoned` (a non-blocking attempt against a foreign holder still
reports `WouldBlock`). -/
theorem poison_propagation_sticky {α : Type} (m : ReentrantMutex α)
    (g : ReentrantMutexGuard) (hg : g.__poison.panicking = false) :
    (g.drop m true).poison = true ∧
    (∀ s s2 : Sys α, Steps s s2 → s.mtx.poison = true →
      s2.mtx.poison = true) ∧
    (∀ m2 : ReentrantMutex α, m2.poison = true →
      (∀ t pan r m3, m2.lock t pan = some (r, m3) →
        r = .poisoned ⟨t, ⟨pan⟩⟩) ∧
      (∀ t pan, (m2.try_lock t pan).1 = .poisoned ⟨t, ⟨pan⟩⟩ ∨
        (m2.try_lock t pan).1 = .wouldBlock)) := by
  refine ⟨?_, fun s s2 hs hp => steps_poison_mono hs hp, ?_⟩
  · show (unlockStep (poisonDoneStep m g true)).poison = true
    unfold unlockStep poisonDoneStep poison.done
    simp [hg]
  · intro m2 hp2
    constructor
    · intro t pan r m3 hlock
      by_cases hc : sys.canAcquire m2.inner t
      · rw [lock_eq_of_canAcquire pan hc] at hlock
        injection hlock with hlock
        injection hlock with hr _
        rw [← hr, guard_new_eq]
        simp [hp2]
      · rw [lock_eq_none pan (by simpa using hc)] at hlock
        exact absurd hlock (by simp)
    · intro t pan
      by_cases hc : sys.canAcquire m2.inner t
      · left
        simp only [try_lock_eq_of_canAcquire pan hc]
        rw [guard_new_eq]
        simp [hp2, fromLockResult]
      · right
        simp only [try_lock_eq_wouldBlock pan (by simpa using hc)]

theorem poison_propagation_sticky_witness :
    (ReentrantMutexGuard.drop ⟨2, ⟨false⟩⟩
      (⟨some (2, 1), false, (0 : Nat)⟩ : ReentrantMutex Nat) true).poison
        = true :=
  (poison_propagation_sticky ⟨some (2, 1), false, (0 : Nat)⟩ ⟨2, ⟨false⟩⟩
    rfl).1

/-- Claim C7 counterexample: thread 3 holds nested guards, both created
while not unwinding; only the inner guard is dropped during an unwind, and
the unwind is contained before the outer guard is dropped (the outer guard
exits normally, an exit that on its own would leave the flag unchanged);
yet the lock ends up poisoned, so the outcome is determined by the inner
unwinding exit, not by the outermost guard's own exit condition. -/
theorem poison_isolation_counterexample :
    ReentrantMutex.lock (ReentrantMutex.new (0 : Nat)) 3 false =
      some (.ok ⟨3, ⟨false⟩⟩, ⟨some (3, 1), false, 0⟩) ∧
    ReentrantMutex.lock (⟨some (3, 1), false, (0 : Nat)⟩ :
        ReentrantMutex Nat) 3 false =
      some (.ok ⟨3, ⟨false⟩⟩, ⟨some (3, 2), false, 0⟩) ∧
    ReentrantMutexGuard.drop ⟨3, ⟨false⟩⟩
        (⟨some (3, 2), false, (0 : Nat)⟩ : ReentrantMutex Nat) true =
      ⟨some (3, 1), true, 0⟩ ∧
    poison.done false (⟨false⟩ : poison.Guard) false = false ∧
    ReentrantMutexGuard.drop ⟨3, ⟨false⟩⟩
        (⟨some (3, 1), true, (0 : Nat)⟩ : ReentrantMutex Nat) false =
      ⟨none, true, 0⟩ := by
  decide

/-- Claim C7 (amended): poisoning is decided per critical section, by the
entry and exit conditions of each guard alone. An inner guard created
while the thread was already unwinding never changes the flag, so in that
case the final poison state after dropping inner and outer guard is
exactly the outcome of the outermost guard's own exit; an inner guard
entered cleanly and dropped during a contained unwind, however, poisons
the lock regardless of the outer exit. -/
theorem poison_isolation_amended {α : Type} (m : ReentrantMutex α)
    (gIn gOut : ReentrantMutexGuard) (panIn panOut : Bool)
    (hIn : gIn.__poison.panicking = true) :
    (gIn.drop m panIn).poison = m.poison ∧
    (gOut.drop (gIn.drop m panIn) panOut).poison =
      poison.done m.poison gOut.__poison panOut := by
  have h1 : (gIn.drop m panIn).poison = m.poison := by
    show (unlockStep (poisonDoneStep m gIn panIn)).poison = m.poison
    unfold unlockStep poisonDoneStep poison.done
    simp [hIn]
  refine ⟨h1, ?_⟩
  show (unlockStep (poisonDoneStep (gIn.drop m panIn) gOut panOut)).poison = _
  show poison.done (gIn.drop m panIn).poison gOut.__poison panOut = _
  rw [h1]

theorem poison_isolation_amended_witness :
    (ReentrantMutexGuard.drop ⟨6, ⟨true⟩⟩
      (⟨some (6, 2), false, (0 : Nat)⟩ : ReentrantMutex Nat) true).poison
        = false :=
  (poison_isolation_amended ⟨some (6, 2), false, (0 : Nat)⟩ ⟨6, ⟨true⟩⟩
    ⟨6, ⟨false⟩⟩ true false rfl).1

/-- Claim C8: guard dereference and scope-exit-driven release.
Dereferencing any guard yields the protected value of the mutex it was
created from; and the only step of the model under which the reentrancy
depth of the primitive ever decreases is the drop of a live guard, so no
separate unlock operation exists: release happens solely at scope exit. -/
theorem deref_and_scoped_release {α : Type} :
    (∀ (g : ReentrantMutexGuard) (m : ReentrantMutex α),
      g.deref m = m.data) ∧
    (∀ s s2 : Sys α, Step s s2 →
      sysDepth s2.mtx.inner < sysDepth s.mtx.inner →
      ∃ g pan, g ∈ s.live ∧
        s2 = ⟨g.drop s.mtx pan, s.live.erase g⟩) := by
  constructor
  · intro g m
    rfl
  · intro s s2 hs hdec
    cases hs with
    | lockStep t pan r m2 h =>
      exfalso
      by_cases hc : sys.canAcquire s.mtx.inner t
      · rw [lock_eq_of_canAcquire pan hc] at h
        injection h with h
        injection h with _ hm
        rw [← hm] at hdec
        have hdec2 : sysDepth (sys.acquire s.mtx.inner t) <
            sysDepth s.mtx.inner := hdec
        rw [sysDepth_acquire] at hdec2
        omega
      · rw [lock_eq_none pan (by simpa using hc)] at h
        exact absurd h (by simp)
    | tryLockStep t pan =>
      exfalso
      by_cases hc : sys.canAcquire s.mtx.inner t
      · simp only [try_lock_eq_of_canAcquire pan hc] at hdec
        have hdec2 : sysDepth (sys.acquire s.mtx.inner t) <
            sysDepth s.mtx.inner := hdec
        rw [sysDepth_acquire] at hdec2
        omega
      · simp only [try_lock_eq_wouldBlock pan (by simpa using hc)] at hdec
        omega
    | dropStep g pan h =>
      exact ⟨g, pan, h, rfl⟩

theorem deref_and_scoped_release_witness :
    ∃ g pan, g ∈ [(⟨3, ⟨false⟩⟩ : ReentrantMutexGuard)] ∧
      (⟨⟨none, false, 0⟩, []⟩ : Sys Nat) =
        ⟨g.drop ⟨some (3, 1), false, 0⟩ pan,
          [(⟨3, ⟨false⟩⟩ : ReentrantMutexGuard)].erase g⟩ :=
  (deref_and_scoped_release).2
    ⟨⟨some (3, 1), false, 0⟩, [⟨3, ⟨false⟩⟩]⟩
    ⟨⟨none, false, 0⟩, []⟩
    (Step.dropStep _ ⟨3, ⟨false⟩⟩ false (by decide))
    (by decide)

/-- Claim C10: frame property. No step of the model changes the protected
value: `lock`, `try_lock` and guard drop all leave `data` exactly as it
was, so in every reachable state the stored value is the one passed to the
constructor, and every dereference of a live guard returns exactly that
value. -/
theorem lock_operations_frame {α : Type} (v0 : α) :
    (∀ s s2 : Sys α, Step s s2 → s2.mtx.data = s.mtx.data) ∧
    (∀ s : Sys α, Reachable v0 s → s.mtx.data = v0 ∧
      ∀ g ∈ s.live, g.deref s.mtx = v0) := by
  have hstep : ∀ s s2 : Sys α, Step s s2 → s2.mtx.data = s.mtx.data := by
    intro s s2 hs
    cases hs with
    | lockStep t pan r m2 h =>
      by_cases hc : sys.canAcquire s.mtx.inner t
      · rw [lock_eq_of_canAcquire pan hc] at h
        injection h with h
        injection h with _ hm
        rw [← hm]
      · rw [lock_eq_none pan (by simpa using hc)] at h
        exact absurd h (by simp)
    | tryLockStep t pan =>
      by_cases hc : sys.canAcquire s.mtx.inner t
      · simp only [try_lock_eq_of_canAcquire pan hc]
      · simp only [try_lock_eq_wouldBlock pan (by simpa using hc)]
    | dropStep g pan h =>
      rfl
  refine ⟨hstep, ?_⟩
  intro s hr
  induction hr with
  | init =>
    exact ⟨rfl, fun g hg => absurd hg (by simp)⟩
  | step hpred hstep2 ih =>
    have hd := hstep _ _ hstep2
    exact ⟨hd.trans ih.1, fun g _ => hd.trans ih.1⟩

theorem lock_operations_frame_witness :
    (⟨⟨some (5, 1), false, 0⟩, [⟨5, ⟨false⟩⟩]⟩ : Sys Nat).mtx.data = 0 ∧
    ∀ g ∈ (⟨⟨some (5, 1), false, 0⟩, [⟨5, ⟨false⟩⟩]⟩ : Sys Nat).live,
      g.deref (⟨⟨some (5, 1), false, 0⟩, [⟨5, ⟨false⟩⟩]⟩ : Sys Nat).mtx = 0 :=
  (lock_operations_frame 0).2 ⟨⟨some (5, 1), false, 0⟩, [⟨5, ⟨false⟩⟩]⟩
    (Reachable.step Reachable.init
      (Step.lockStep _ 5 false (.ok ⟨5, ⟨false⟩⟩) ⟨some (5, 1), false, 0⟩
        rfl))
